import Mathlib

/-!
Verification of the Activity Log filter/pagination controller from
src/components/admin-panel/sections/ActivityLog/index.js.

The component derives GraphQL query variables from URL query parameters,
issues a query, reconciles the type filter against the loaded account, and
selects a render branch from the query result state.  URL query objects are
modelled as association lists from keys to values, where a value is either a
string or the JS null used to clear a parameter; lookup takes the first
matching entry, and the merge operation gives the right operand precedence
(the observable semantics of a JS object spread).
-/

namespace ActivityLog

/-- A query-parameter value: a string, or JS null (used by the reconciliation
change set to clear a parameter). -/
inductive QVal where
  | str (s : String)
  | null
deriving Repr, DecidableEq

/-- JS falsiness for the values that can appear in a query object here:
null is falsy, a string is falsy exactly when it is empty. -/
def QVal.falsy : QVal → Bool
  | .str s => s.isEmpty
  | .null => true

/-- A router query object: an association list of parameter keys to values. -/
abbrev QueryParams := List (String × QVal)

/-- Property lookup on a query object (first matching entry wins). -/
def getVal : QueryParams → String → Option QVal
  | [], _ => none
  | (k, v) :: rest, key => if key = k then some v else getVal rest key

/-- Lookup returning a string value; a null value or an absent key both read
back as none (JS would hand the consumer null/undefined, which every consumer
in this component treats through falsiness). -/
def getStr (m : QueryParams) (key : String) : Option String :=
  match getVal m key with
  | some (QVal.str s) => some s
  | _ => none

/-- The keys of a query object. -/
def objKeys (m : QueryParams) : List String := m.map (fun p => p.1)

/-- lodash omit: drop the entries whose key is in the given list. -/
def omitKeys (ks : List String) (m : QueryParams) : QueryParams :=
  m.filter (fun p => !(ks.contains p.1))

/-- lodash omitBy with the falsiness predicate: drop the falsy-valued
entries. -/
def omitFalsy (m : QueryParams) : QueryParams :=
  m.filter (fun p => !(p.2.falsy))

/-- JS object spread (the observable part): every key of b takes the value b
gives it, every other key of a keeps its value. -/
def mergeObj (a b : QueryParams) : QueryParams :=
  a.filter (fun p => !((objKeys b).contains p.1)) ++ b

/-- lodash isEmpty on a change-set object. -/
def objIsEmpty (m : QueryParams) : Bool := m.isEmpty

/-! ### JS parseInt

getQueryVariables derives offset through the JS builtin
parseInt(value) || 0, embedded here exactly: trim leading whitespace, read an
optional sign, accept a 0x/0X hexadecimal prefix, then take the longest run
of digits of the radix; no digits means NaN, which the || 0 turns into 0. -/

/-- The whitespace characters parseInt skips (the ASCII ones; the component
only ever receives URL query strings). -/
def isJsWhitespace (c : Char) : Bool :=
  c = ' ' || c = '\t' || c = '\n' || c = '\r' || c = '\x0b' || c = '\x0c'

/-- Value of a digit character in radix 16 (also used for radix 10, where
only decimal digit characters are ever accepted). -/
def hexDigitVal (c : Char) : Nat :=
  if c.isDigit then c.toNat - 48
  else if 'a' ≤ c ∧ c ≤ 'f' then c.toNat - 87
  else if 'A' ≤ c ∧ c ≤ 'F' then c.toNat - 55
  else 0

/-- Is c a digit of the given radix (10 or 16)? -/
def isRadixDigit (radix : Nat) (c : Char) : Bool :=
  if radix = 16 then c.isDigit || ('a' ≤ c && c ≤ 'f') || ('A' ≤ c && c ≤ 'F')
  else c.isDigit

/-- JS parseInt on a string, none standing for NaN. -/
def jsParseInt (s : String) : Option Int :=
  let cs := s.toList.dropWhile isJsWhitespace
  let sign : Int := if cs.head? = some '-' then -1 else 1
  let cs1 := if cs.head? = some '-' ∨ cs.head? = some '+' then cs.tail else cs
  let hex : Bool :=
    cs1.head? = some '0' ∧
      (cs1.tail.head? = some 'x' ∨ cs1.tail.head? = some 'X')
  let radix := if hex then 16 else 10
  let cs2 := if hex then cs1.tail.tail else cs1
  let digits := cs2.takeWhile (isRadixDigit radix)
  if digits.isEmpty then none
  else some (sign * (digits.foldl (fun a c => radix * a + hexDigitVal c) 0 : Nat))

/-- The derived offset: parseInt(routerQuery.offset) || 0.  An absent key is
parseInt(undefined) = NaN, and NaN || 0 and 0 || 0 both give 0, so the result
is the parsed value with 0 as the default. -/
def deriveOffset (routerQuery : QueryParams) : Int :=
  match getStr routerQuery "offset" with
  | none => 0
  | some s => (jsParseInt s).getD 0

/-- The positional value of a decimal digit string: the specification-side
meaning of a valid integer numeral. -/
def decimalValue : List Char → Nat
  | [] => 0
  | c :: cs => (c.toNat - 48) * 10 ^ cs.length + decimalValue cs

/-! ### JS String.prototype.split with a one-character separator -/

/-- Split a character list on a separator character; like JS split, an empty
input gives one empty group, and consecutive separators give empty groups. -/
def splitCharsOn (sep : Char) : List Char → List (List Char)
  | [] => [[]]
  | c :: rest =>
    if c = sep then [] :: splitCharsOn sep rest
    else
      match splitCharsOn sep rest with
      | [] => [[c]]
      | g :: gs => (c :: g) :: gs

/-- JS s.split(sep) for a one-character separator. -/
def jsSplit (s : String) (sep : Char) : List String :=
  (splitCharsOn sep s.toList).map (fun cs => String.mk cs)

/-- The comma-separated string a list of parts denotes: the
specification-side constructor for a comma-separated slug parameter. -/
def commaJoined : List String → String
  | [] => ""
  | [s] => s
  | s :: rest => s ++ "," ++ commaJoined rest

/-! ### External helpers of the component that are not under src/ -/

/-- Modelled from the spec: parseDateInterval (from lib/date-utils, not under
src/) parses a period token into a from/to date interval; an absent period
yields an unbounded interval (both bounds undefined).  The concrete token
format is external to this component; it is modelled as the two bounds
separated by an arrow, an empty bound standing for unbounded. -/
def parseDateInterval : Option String → Option String × Option String
  | none => (none, none)
  | some s =>
    match jsSplit s '→' with
    | [f, t] =>
      (if f.isEmpty then none else some f, if t.isEmpty then none else some t)
    | _ => (none, none)

/-- Modelled from the spec: getActivityTypeFilterValuesFromKey (from the
ActivityTypeFilter module, not under src/) expands a logical filter key into
the concrete set of underlying activity-type tags it represents via a lookup
table; an absent key expands to no tags.  The table contents are not
specified, so a key is modelled as expanding to the one-element set holding
its own tag. -/
def getActivityTypeFilterValuesFromKey : Option String → Option (List String)
  | none => none
  | some k => if k.isEmpty then none else some [k]

/-- A loaded account, as the reconciliation sees it: the account summary
returned by the query, with its type tag and host capability. -/
structure LoadedAccount where
  type : String
  isHost : Bool
deriving Repr, DecidableEq

/-- The activity-type filter keys every account supports. -/
def baseActivityTypeFilters : List String :=
  ["ALL", "EXPENSES", "CONTRIBUTIONS", "ACTIVITIES_UPDATES"]

/-- The activity-type filter keys available only to host accounts. -/
def hostOnlyActivityTypeFilters : List String := ["HOST"]

/-- Modelled from the spec: the set of filters supported by the account is
determined by its type/capabilities; host-only filter keys are supported only
by host accounts (an account of type INDIVIDUAL is not a host and does not
support them). -/
def supportedActivityTypeFilters (account : LoadedAccount) : List String :=
  baseActivityTypeFilters ++
    (if account.isHost then hostOnlyActivityTypeFilters else [])

/-- Modelled from the spec: isSupportedActivityTypeFilter (from the
ActivityTypeFilter module, not under src/) holds when the selected type
filter is in the set of filters supported by the loaded account; an absent
(or cleared, hence falsy) filter is always supported. -/
def isSupportedActivityTypeFilter (account : LoadedAccount) :
    Option String → Bool
  | none => true
  | some t => t.isEmpty || (supportedActivityTypeFilters account).contains t

/-! ### getQueryVariables -/

/-- The ACTIVITY_LIMIT constant: the fixed page size. -/
def ACTIVITY_LIMIT : Nat := 10

/-- The account argument of the activities query: either the single target
account reference, or the list of account references a comma-separated
account parameter selects. -/
inductive AccountFilter where
  | single (slug : String)
  | list (slugs : List String)
deriving Repr, DecidableEq

/-- The variables getQueryVariables returns; a flag left undefined in JS is
none here. -/
structure QueryVariables where
  accountSlug : String
  dateFrom : Option String
  dateTo : Option String
  limit : Nat
  offset : Int
  type : Option (List String)
  account : AccountFilter
  includeChildrenAccounts : Option Bool
  excludeParentAccount : Option Bool
  includeHostedAccounts : Option Bool
deriving Repr, DecidableEq

/-- getQueryVariables: drops the slug and section parameters, derives the
offset, the date interval and the type expansion, and decodes the account
selector (children sentinel, hosted sentinel, comma-separated slugs, or the
default single target account). -/
def getQueryVariables (accountSlug : String) (routerQueryRaw : QueryParams) :
    QueryVariables :=
  let routerQuery := omitKeys ["slug", "section"] routerQueryRaw
  let offset := deriveOffset routerQuery
  let period := getStr routerQuery "period"
  let typeKey := getStr routerQuery "type"
  let account := getStr routerQuery "account"
  let interval := parseDateInterval period
  let accountDecoded :
      AccountFilter × Option Bool × Option Bool × Option Bool :=
    if account = some "__CHILDREN_ACCOUNTS__" then
      (AccountFilter.single accountSlug, some true, none, some true)
    else if account = some "__HOSTED_ACCOUNTS__" then
      (AccountFilter.single accountSlug, none, some true, none)
    else
      match account with
      | some s =>
        if s.isEmpty then (AccountFilter.single accountSlug, none, none, none)
        else (AccountFilter.list (jsSplit s ','), some true, none, none)
      | none => (AccountFilter.single accountSlug, none, none, none)
  { accountSlug := accountSlug
    dateFrom := interval.1
    dateTo := interval.2
    limit := ACTIVITY_LIMIT
    offset := offset
    type := getActivityTypeFilterValuesFromKey typeKey
    account := accountDecoded.1
    includeChildrenAccounts := accountDecoded.2.1
    excludeParentAccount := accountDecoded.2.2.2
    includeHostedAccounts := accountDecoded.2.2.1 }

/-! ### Reconciliation of the type filter against the loaded account -/

/-- getChangesThatRequireUpdate: an empty change set when no account is
loaded; otherwise, when the selected type filter is not supported by the
account, a change set clearing type (setting it to null). -/
def getChangesThatRequireUpdate (account : Option LoadedAccount)
    (queryParams : QueryParams) : QueryParams :=
  match account with
  | none => []
  | some acct =>
    if isSupportedActivityTypeFilter acct (getStr queryParams "type") then []
    else [("type", QVal.null)]

/-- handleUpdateFilters: the query pushed to the router is the current
routerQuery (already stripped of slug and section) spread with the given
parameters, with the falsy-valued entries omitted. -/
def handleUpdateFilters (routerQuery queryParams : QueryParams) :
    QueryParams :=
  omitFalsy (mergeObj routerQuery queryParams)

/-- The reactive effect: compute the change set; when it is non-empty, call
handleUpdateFilters on routerQuery spread with the changes and navigate to
the resulting query (some q); otherwise do nothing (none). -/
def reconcileEffect (account : Option LoadedAccount)
    (routerQuery : QueryParams) : Option QueryParams :=
  let changes := getChangesThatRequireUpdate account routerQuery
  if objIsEmpty changes then none
  else some (handleUpdateFilters routerQuery (mergeObj routerQuery changes))

/-! ### Render-state selection and pagination -/

/-- The activities connection of the query result: the total count and the
node list, which is absent when the viewer lacks permission. -/
structure ActivitiesConnection where
  totalCount : Nat
  nodes : Option (List String)
deriving Repr, DecidableEq

/-- The data of the activity log query: the account summary and the
activities connection, each possibly absent. -/
structure ActivityLogData where
  account : Option LoadedAccount
  activities : Option ActivitiesConnection
deriving Repr, DecidableEq

/-- The mutually exclusive render outcomes of the component body. -/
inductive RenderBranch where
  | graphqlError
  | loadingPlaceholder
  | mustBeAdmin
  | noActivity
  | activityList
deriving Repr, DecidableEq

/-- The branch the component renders: error wins, then loading, then the
must-be-admin message when data?.activities?.nodes is absent, then the
no-activity message when totalCount is 0 (falsy), else the activity list. -/
def selectRenderBranch (error loading : Bool) (data : Option ActivityLogData) :
    RenderBranch :=
  if error then .graphqlError
  else if loading then .loadingPlaceholder
  else
    match data.bind (fun d => d.activities) with
    | none => .mustBeAdmin
    | some acts =>
      match acts.nodes with
      | none => .mustBeAdmin
      | some _ =>
        if acts.totalCount = 0 then .noActivity else .activityList

/-- The pagination guard: data?.activities?.totalCount > ACTIVITY_LIMIT
(false when data or activities is absent, as a JS comparison with undefined
is). -/
def paginationRendered (data : Option ActivityLogData) : Bool :=
  match data.bind (fun d => d.activities) with
  | none => false
  | some acts => decide (acts.totalCount > ACTIVITY_LIMIT)

/-- Modelled from the spec: the Pagination component (not under src/) shows
ceil(total / limit) pages. -/
def pageCount (total limit : Nat) : Nat := (total + limit - 1) / limit

/-! ### Helper lemmas about query objects -/

/-- Lookup misses when no entry carries the key. -/
theorem getVal_eq_none (m : QueryParams) (key : String)
    (h : ∀ p ∈ m, p.1 ≠ key) : getVal m key = none := by
  induction m with
  | nil => rfl
  | cons p rest ih =>
    obtain ⟨k, v⟩ := p
    have hk : key ≠ k := fun e => h (k, v) (List.mem_cons_self _ _) e.symm
    simp only [getVal, if_neg hk]
    exact ih fun q hq => h q (List.mem_cons_of_mem _ hq)

/-- Omitting keys other than the looked-up one does not change the lookup. -/
theorem getVal_omitKeys (ks : List String) (m : QueryParams) (key : String)
    (h : ks.contains key = false) :
    getVal (omitKeys ks m) key = getVal m key := by
  have hkey : key ∉ ks := by simpa using h
  induction m with
  | nil => rfl
  | cons p rest ih =>
    obtain ⟨k, v⟩ := p
    by_cases hk : key = k
    · subst hk
      simp [omitKeys, List.filter_cons, hkey, getVal]
    · by_cases hck : k ∈ ks
      · simp [omitKeys, List.filter_cons, hck, getVal, hk] at ih ⊢
        exact ih
      · simp [omitKeys, List.filter_cons, hck, getVal, hk] at ih ⊢
        exact ih

/-- Same fact for the string-typed lookup. -/
theorem getStr_omitKeys (ks : List String) (m : QueryParams) (key : String)
    (h : ks.contains key = false) :
    getStr (omitKeys ks m) key = getStr m key := by
  rw [getStr, getStr, getVal_omitKeys ks m key h]

/-- Spreading an object into a merge it is already the left operand of is a
no-op: every key of a already occurs in mergeObj a b. -/
theorem mergeObj_absorb (a b : QueryParams) :
    mergeObj a (mergeObj a b) = mergeObj a b := by
  have h : a.filter (fun p => !((objKeys (mergeObj a b)).contains p.1)) = [] := by
    rw [List.filter_eq_nil_iff]
    intro p hp
    suffices hmem : p.1 ∈ objKeys (mergeObj a b) by simp [hmem]
    rw [mergeObj, objKeys, List.map_append, List.mem_append]
    by_cases hb : p.1 ∈ objKeys b
    · exact Or.inr hb
    · refine Or.inl (List.mem_map.2 ⟨p, List.mem_filter.2 ⟨hp, ?_⟩, rfl⟩)
      simp [hb]
  conv_lhs => rw [mergeObj]
  rw [h, List.nil_append]

/-- After the corrective navigation the type parameter is gone: the merge
overrides it with null and the falsy filter strips it. -/
theorem getStr_cleared_type (q : QueryParams) :
    getStr (omitFalsy (mergeObj q [("type", QVal.null)])) "type" = none := by
  have h : getVal (omitFalsy (mergeObj q [("type", QVal.null)])) "type" = none := by
    apply getVal_eq_none
    intro p hp
    rcases List.mem_filter.1 hp with ⟨hp1, hp2⟩
    rcases List.mem_append.1 hp1 with hleft | hright
    · rcases List.mem_filter.1 hleft with ⟨_, hcond⟩
      simpa [objKeys] using hcond
    · simp only [List.mem_singleton] at hright
      subst hright
      simp [QVal.falsy] at hp2
  rw [getStr, h]

/-- The change set an account with a supported or unsupported filter
produces, in closed form. -/
theorem getChanges_eq (acct : LoadedAccount) (q : QueryParams) :
    getChangesThatRequireUpdate (some acct) q =
      if isSupportedActivityTypeFilter acct (getStr q "type") then []
      else [("type", QVal.null)] := rfl

/-- The navigation the reactive effect issues, in closed form. -/
theorem reconcileEffect_eq (acct : LoadedAccount) (q : QueryParams) :
    reconcileEffect (some acct) q =
      if isSupportedActivityTypeFilter acct (getStr q "type") then none
      else some (omitFalsy (mergeObj q [("type", QVal.null)])) := by
  by_cases h : isSupportedActivityTypeFilter acct (getStr q "type")
  · simp [reconcileEffect, getChangesThatRequireUpdate, h, objIsEmpty]
  · simp [reconcileEffect, getChangesThatRequireUpdate, h, objIsEmpty,
      handleUpdateFilters, mergeObj_absorb]

/-! ### Claim theorems: reconciliation -/

/-- C1: for every loaded account and query-parameter mapping, an unsupported
type filter produces the change set clearing type and a navigation to the
previous parameters merged with that change with falsy values stripped, and a
supported filter produces an empty change set and no navigation. -/
theorem typeFilter_reconciliation_correct (acct : LoadedAccount)
    (q : QueryParams) :
    getChangesThatRequireUpdate (some acct) q =
      (if isSupportedActivityTypeFilter acct (getStr q "type") then []
       else [("type", QVal.null)]) ∧
    reconcileEffect (some acct) q =
      (if isSupportedActivityTypeFilter acct (getStr q "type") then none
       else some (omitFalsy (mergeObj q [("type", QVal.null)]))) :=
  ⟨getChanges_eq acct q, reconcileEffect_eq acct q⟩

/-- C2: reconciliation is idempotent: when the type filter is unsupported,
one corrective navigation is issued, and on the parameters it produces the
change set is empty and no second navigation follows. -/
theorem typeFilter_reconciliation_idempotent (acct : LoadedAccount)
    (q : QueryParams)
    (h : isSupportedActivityTypeFilter acct (getStr q "type") = false) :
    reconcileEffect (some acct) q =
      some (omitFalsy (mergeObj q [("type", QVal.null)])) ∧
    getChangesThatRequireUpdate (some acct)
      (omitFalsy (mergeObj q [("type", QVal.null)])) = [] ∧
    reconcileEffect (some acct)
      (omitFalsy (mergeObj q [("type", QVal.null)])) = none := by
  refine ⟨?_, ?_, ?_⟩
  · rw [reconcileEffect_eq, h]
    rfl
  · rw [getChanges_eq, getStr_cleared_type]
    rfl
  · rw [reconcileEffect_eq, getStr_cleared_type]
    rfl

/-- Witness for C2: an INDIVIDUAL non-host account with the host-only HOST
filter selected gets exactly one corrective navigation. -/
theorem typeFilter_reconciliation_idempotent_witness :
    isSupportedActivityTypeFilter ⟨"INDIVIDUAL", false⟩
        (getStr [("type", QVal.str "HOST")] "type") = false ∧
      (reconcileEffect (some ⟨"INDIVIDUAL", false⟩) [("type", QVal.str "HOST")] =
          some (omitFalsy (mergeObj [("type", QVal.str "HOST")]
            [("type", QVal.null)])) ∧
        getChangesThatRequireUpdate (some ⟨"INDIVIDUAL", false⟩)
            (omitFalsy (mergeObj [("type", QVal.str "HOST")]
              [("type", QVal.null)])) = [] ∧
        reconcileEffect (some ⟨"INDIVIDUAL", false⟩)
            (omitFalsy (mergeObj [("type", QVal.str "HOST")]
              [("type", QVal.null)])) = none) :=
  ⟨by decide, typeFilter_reconciliation_idempotent ⟨"INDIVIDUAL", false⟩
    [("type", QVal.str "HOST")] (by decide)⟩

/-- C9: with no loaded account the change set is empty and no corrective
navigation is ever issued. -/
theorem no_account_no_navigation (q : QueryParams) :
    getChangesThatRequireUpdate none q = [] ∧ reconcileEffect none q = none := by
  constructor
  · rfl
  · rfl

/-! ### Helper lemmas about splitting and joining -/

/-- A separator-free character list splits into the single group it is. -/
theorem splitCharsOn_no_sep (sep : Char) (cs : List Char) (h : sep ∉ cs) :
    splitCharsOn sep cs = [cs] := by
  induction cs with
  | nil => rfl
  | cons c rest ih =>
    have hc : ¬c = sep := fun e => h (e ▸ List.mem_cons_self _ _)
    have hrest : sep ∉ rest := fun hm => h (List.mem_cons_of_mem _ hm)
    simp [splitCharsOn, hc, ih hrest]

/-- Splitting at the first separator detaches the separator-free prefix. -/
theorem splitCharsOn_append (sep : Char) (cs rest : List Char)
    (h : sep ∉ cs) :
    splitCharsOn sep (cs ++ sep :: rest) = cs :: splitCharsOn sep rest := by
  induction cs with
  | nil => simp [splitCharsOn]
  | cons c cs2 ih =>
    have hc : ¬c = sep := fun e => h (e ▸ List.mem_cons_self _ _)
    have h2 : sep ∉ cs2 := fun hm => h (List.mem_cons_of_mem _ hm)
    simp [splitCharsOn, hc, ih h2]

/-- Rebuilding a string from its character list is the identity. -/
theorem mk_toList (s : String) : String.mk s.toList = s := rfl

/-- The characters of a comma-join with at least two parts. -/
theorem toList_commaJoined_cons (s r : String) (rest : List String) :
    (commaJoined (s :: r :: rest)).toList =
      s.toList ++ ',' :: (commaJoined (r :: rest)).toList := by
  show (s ++ "," ++ commaJoined (r :: rest)).data = _
  simp [String.data_append, String.toList]

/-- JS split on a comma inverts the comma-join of comma-free parts. -/
theorem jsSplit_commaJoined (slugs : List String) (hne : slugs ≠ [])
    (h : ∀ s ∈ slugs, ',' ∉ s.toList) :
    jsSplit (commaJoined slugs) ',' = slugs := by
  induction slugs with
  | nil => cases hne rfl
  | cons s rest ih =>
    cases rest with
    | nil =>
      have hs : ',' ∉ s.toList := h s (List.mem_cons_self _ _)
      simp only [commaJoined, jsSplit, splitCharsOn_no_sep ',' s.toList hs,
        List.map_cons, List.map_nil, mk_toList]
    | cons r rest2 =>
      have hs : ',' ∉ s.toList := h s (List.mem_cons_self _ _)
      have hrest : ∀ t ∈ r :: rest2, ',' ∉ t.toList := fun t ht =>
        h t (List.mem_cons_of_mem _ ht)
      have hr := ih (by simp) hrest
      simp only [jsSplit, toList_commaJoined_cons,
        splitCharsOn_append ',' s.toList _ hs, List.map_cons, mk_toList]
      simp only [jsSplit] at hr
      rw [hr]

/-! ### Claim theorems: derived query variables -/

/-- C4: the children sentinel turns on includeChildrenAccounts and
excludeParentAccount and leaves includeHostedAccounts undefined. -/
theorem children_sentinel_variables (slug : String) (q : QueryParams)
    (h : getVal q "account" = some (QVal.str "__CHILDREN_ACCOUNTS__")) :
    (getQueryVariables slug q).includeChildrenAccounts = some true ∧
    (getQueryVariables slug q).excludeParentAccount = some true ∧
    (getQueryVariables slug q).includeHostedAccounts = none := by
  have ha : getStr (omitKeys ["slug", "section"] q) "account" =
      some "__CHILDREN_ACCOUNTS__" := by
    rw [getStr_omitKeys _ _ _ (by decide), getStr, h]
  simp [getQueryVariables, ha]

/-- Witness for C4 at a concrete mapping. -/
theorem children_sentinel_variables_witness :
    getVal [("account", QVal.str "__CHILDREN_ACCOUNTS__")] "account" =
        some (QVal.str "__CHILDREN_ACCOUNTS__") ∧
      ((getQueryVariables "me"
          [("account", QVal.str "__CHILDREN_ACCOUNTS__")]).includeChildrenAccounts =
          some true ∧
        (getQueryVariables "me"
          [("account", QVal.str "__CHILDREN_ACCOUNTS__")]).excludeParentAccount =
          some true ∧
        (getQueryVariables "me"
          [("account", QVal.str "__CHILDREN_ACCOUNTS__")]).includeHostedAccounts =
          none) :=
  ⟨by decide, children_sentinel_variables "me"
    [("account", QVal.str "__CHILDREN_ACCOUNTS__")] (by decide)⟩

/-- C5: the hosted sentinel turns on includeHostedAccounts only, and the
account variable stays the single target account. -/
theorem hosted_sentinel_variables (slug : String) (q : QueryParams)
    (h : getVal q "account" = some (QVal.str "__HOSTED_ACCOUNTS__")) :
    (getQueryVariables slug q).includeHostedAccounts = some true ∧
    (getQueryVariables slug q).includeChildrenAccounts = none ∧
    (getQueryVariables slug q).excludeParentAccount = none ∧
    (getQueryVariables slug q).account = AccountFilter.single slug := by
  have ha : getStr (omitKeys ["slug", "section"] q) "account" =
      some "__HOSTED_ACCOUNTS__" := by
    rw [getStr_omitKeys _ _ _ (by decide), getStr, h]
  simp [getQueryVariables, ha]

/-- Witness for C5 at a concrete mapping. -/
theorem hosted_sentinel_variables_witness :
    getVal [("account", QVal.str "__HOSTED_ACCOUNTS__")] "account" =
        some (QVal.str "__HOSTED_ACCOUNTS__") ∧
      ((getQueryVariables "me"
          [("account", QVal.str "__HOSTED_ACCOUNTS__")]).includeHostedAccounts =
          some true ∧
        (getQueryVariables "me"
          [("account", QVal.str "__HOSTED_ACCOUNTS__")]).includeChildrenAccounts =
          none ∧
        (getQueryVariables "me"
          [("account", QVal.str "__HOSTED_ACCOUNTS__")]).excludeParentAccount =
          none ∧
        (getQueryVariables "me"
          [("account", QVal.str "__HOSTED_ACCOUNTS__")]).account =
          AccountFilter.single "me") :=
  ⟨by decide, hosted_sentinel_variables "me"
    [("account", QVal.str "__HOSTED_ACCOUNTS__")] (by decide)⟩

/-- C6: a non-sentinel, non-empty comma-separated account parameter selects
exactly those slugs, in order, and turns on includeChildrenAccounts while
leaving the other two flags undefined. -/
theorem account_list_variables (slug : String) (q : QueryParams)
    (slugs : List String) (hne : slugs ≠ [])
    (hcomma : ∀ s ∈ slugs, ',' ∉ s.toList)
    (hnonempty : (commaJoined slugs).isEmpty = false)
    (hs1 : commaJoined slugs ≠ "__CHILDREN_ACCOUNTS__")
    (hs2 : commaJoined slugs ≠ "__HOSTED_ACCOUNTS__")
    (h : getVal q "account" = some (QVal.str (commaJoined slugs))) :
    (getQueryVariables slug q).account = AccountFilter.list slugs ∧
    (getQueryVariables slug q).includeChildrenAccounts = some true ∧
    (getQueryVariables slug q).includeHostedAccounts = none ∧
    (getQueryVariables slug q).excludeParentAccount = none := by
  have ha : getStr (omitKeys ["slug", "section"] q) "account" =
      some (commaJoined slugs) := by
    rw [getStr_omitKeys _ _ _ (by decide), getStr, h]
  simp [getQueryVariables, ha, hs1, hs2, hnonempty,
    jsSplit_commaJoined slugs hne hcomma]

/-- Witness for C6: the parameter a,b,c selects the slugs a, b, c in
order. -/
theorem account_list_variables_witness :
    (getQueryVariables "me" [("account", QVal.str "a,b,c")]).account =
        AccountFilter.list ["a", "b", "c"] ∧
      (getQueryVariables "me"
          [("account", QVal.str "a,b,c")]).includeChildrenAccounts =
        some true ∧
      (getQueryVariables "me"
          [("account", QVal.str "a,b,c")]).includeHostedAccounts = none ∧
      (getQueryVariables "me"
          [("account", QVal.str "a,b,c")]).excludeParentAccount = none :=
  account_list_variables "me" [("account", QVal.str "a,b,c")]
    ["a", "b", "c"] (by decide) (by decide) (by decide) (by decide)
    (by decide) (by decide)

/-- C10: the derived variables do not depend on the slug and section query
parameters. -/
theorem variables_ignore_slug_section (slug : String) (q1 q2 : QueryParams)
    (h : ∀ k, k ≠ "slug" → k ≠ "section" → getVal q1 k = getVal q2 k) :
    getQueryVariables slug q1 = getQueryVariables slug q2 := by
  have hs : ∀ k, k ≠ "slug" → k ≠ "section" →
      getStr (omitKeys ["slug", "section"] q1) k =
        getStr (omitKeys ["slug", "section"] q2) k := by
    intro k h1 h2
    have hc : (["slug", "section"].contains k) = false := by
      simp [List.contains_eq_any_beq, h1, h2]
    rw [getStr_omitKeys _ _ _ hc, getStr_omitKeys _ _ _ hc, getStr, getStr,
      h k h1 h2]
  have e1 := hs "offset" (by decide) (by decide)
  have e2 := hs "period" (by decide) (by decide)
  have e3 := hs "type" (by decide) (by decide)
  have e4 := hs "account" (by decide) (by decide)
  simp only [getQueryVariables, deriveOffset, e1, e2, e3, e4]

/-- Witness for C10: adding slug and section parameters leaves the derived
variables unchanged. -/
theorem variables_ignore_slug_section_witness :
    getQueryVariables "me" [("offset", QVal.str "20")] =
      getQueryVariables "me"
        [("slug", QVal.str "me"), ("offset", QVal.str "20"),
          ("section", QVal.str "activity-log")] :=
  variables_ignore_slug_section "me" _ _ (by
    intro k h1 h2
    simp [getVal, h1, h2])

/-! ### Helper lemmas about parseInt -/

/-- A digit character is distinct from any non-digit character. -/
theorem digit_ne (c : Char) (h : c.isDigit = true) (d : Char)
    (hd : d.isDigit = false) : ¬c = d := by
  intro e
  rw [e, hd] at h
  cases h

/-- Digit characters are not parseInt whitespace. -/
theorem digit_not_ws (c : Char) (h : c.isDigit = true) :
    isJsWhitespace c = false := by
  have h1 := digit_ne c h ' ' (by decide)
  have h2 := digit_ne c h '\t' (by decide)
  have h3 := digit_ne c h '\n' (by decide)
  have h4 := digit_ne c h '\r' (by decide)
  have h5 := digit_ne c h '\x0b' (by decide)
  have h6 := digit_ne c h '\x0c' (by decide)
  simp [isJsWhitespace, h1, h2, h3, h4, h5, h6]

/-- The radix-16 digit table agrees with the decimal value on digits. -/
theorem hexDigitVal_digit (c : Char) (h : c.isDigit = true) :
    hexDigitVal c = c.toNat - 48 := by
  simp [hexDigitVal, h]

/-- The parseInt accumulator fold computes the positional decimal value. -/
theorem foldl_digits_eq (ds : List Char) (h : ∀ c ∈ ds, c.isDigit = true) :
    ∀ a : Nat, ds.foldl (fun x c => 10 * x + hexDigitVal c) a =
      a * 10 ^ ds.length + decimalValue ds := by
  induction ds with
  | nil => intro a; simp [decimalValue]
  | cons c cs ih =>
    intro a
    have hc := h c (List.mem_cons_self _ _)
    have hcs : ∀ x ∈ cs, x.isDigit = true := fun x hx =>
      h x (List.mem_cons_of_mem _ hx)
    simp only [List.foldl_cons, decimalValue, List.length_cons]
    rw [ih hcs, hexDigitVal_digit c hc]
    ring

/-- parseInt on a pure digit string returns its decimal value. -/
theorem jsParseInt_digits (ds : List Char) (hne : ds ≠ [])
    (h : ∀ c ∈ ds, c.isDigit = true) :
    jsParseInt (String.mk ds) = some (decimalValue ds) := by
  obtain ⟨d, rest, rfl⟩ : ∃ d rest, ds = d :: rest := by
    cases ds with
    | nil => cases hne rfl
    | cons d r => exact ⟨d, r, rfl⟩
  have hd : d.isDigit = true := h d (List.mem_cons_self _ _)
  have htake : (d :: rest).takeWhile (isRadixDigit 10) = d :: rest :=
    List.takeWhile_eq_self_iff.2 fun x hx => by simp [isRadixDigit, h x hx]
  have hfold := foldl_digits_eq (d :: rest) h 0
  cases rest with
  | nil =>
    simp [jsParseInt, List.dropWhile_cons, digit_not_ws d hd,
      digit_ne d hd '-' (by decide), digit_ne d hd '+' (by decide),
      htake, hfold]
  | cons r rest2 =>
    have hr : r.isDigit = true :=
      h r (List.mem_cons_of_mem _ (List.mem_cons_self _ _))
    simp [jsParseInt, List.dropWhile_cons, digit_not_ws d hd,
      digit_ne d hd '-' (by decide), digit_ne d hd '+' (by decide),
      digit_ne r hr 'x' (by decide), digit_ne r hr 'X' (by decide),
      htake, hfold]

/-- parseInt on a minus sign followed by digits returns the negated decimal
value. -/
theorem jsParseInt_neg_digits (ds : List Char) (hne : ds ≠ [])
    (h : ∀ c ∈ ds, c.isDigit = true) :
    jsParseInt (String.mk ('-' :: ds)) = some (-(decimalValue ds : Int)) := by
  obtain ⟨d, rest, rfl⟩ : ∃ d rest, ds = d :: rest := by
    cases ds with
    | nil => cases hne rfl
    | cons d r => exact ⟨d, r, rfl⟩
  have hd : d.isDigit = true := h d (List.mem_cons_self _ _)
  have htake : (d :: rest).takeWhile (isRadixDigit 10) = d :: rest :=
    List.takeWhile_eq_self_iff.2 fun x hx => by simp [isRadixDigit, h x hx]
  have hfold := foldl_digits_eq (d :: rest) h 0
  have hws : isJsWhitespace '-' = false := by decide
  cases rest with
  | nil =>
    simp [jsParseInt, List.dropWhile_cons, hws, htake, hfold]
  | cons r rest2 =>
    have hr : r.isDigit = true :=
      h r (List.mem_cons_of_mem _ (List.mem_cons_self _ _))
    simp [jsParseInt, List.dropWhile_cons, hws,
      digit_ne r hr 'x' (by decide), digit_ne r hr 'X' (by decide),
      htake, hfold]

/-- parseInt finds no integer in a string with no digit and no sign. -/
theorem jsParseInt_invalid (s : String)
    (h : ∀ c ∈ s.toList, c.isDigit = false ∧ ¬c = '-' ∧ ¬c = '+') :
    jsParseInt s = none := by
  cases hcs : s.toList.dropWhile isJsWhitespace with
  | nil =>
    simp only [String.toList] at hcs
    simp [jsParseInt, String.toList, hcs]
  | cons c rest =>
    have hmem : c ∈ s.toList.dropWhile isJsWhitespace := by
      rw [hcs]
      exact List.mem_cons_self c rest
    have hc : c ∈ s.toList :=
      List.Sublist.mem hmem (List.dropWhile_sublist isJsWhitespace)
    obtain ⟨hcd, hcm, hcp⟩ := h c hc
    have hc0 : ¬c = '0' := fun e => by
      rw [e] at hcd
      exact absurd hcd (by decide)
    simp only [String.toList] at hcs
    simp [jsParseInt, String.toList, hcs, hcm, hcp, hc0, isRadixDigit, hcd]

/-! ### Claim theorems: offset, pagination, render branches -/

/-- C3 counterexample: the derived offset is not always non-negative — an
offset parameter of -5 derives the negative integer -5. -/
theorem offset_negative_counterexample :
    deriveOffset [("offset", QVal.str "-5")] = -5 ∧
      deriveOffset [("offset", QVal.str "-5")] < 0 := by
  constructor
  · decide
  · decide

/-- C3 (amended): the derived offset equals the parsed integer value of the
offset parameter — the decimal value of a digit string, the negated decimal
value of a minus-signed digit string (so it can be negative) — and equals 0
when the parameter is absent or contains no digits and no sign. -/
theorem offset_derivation (q : QueryParams) :
    (getStr q "offset" = none → deriveOffset q = 0) ∧
    (∀ ds : List Char, ds ≠ [] → (∀ c ∈ ds, c.isDigit = true) →
      (getStr q "offset" = some (String.mk ds) →
        deriveOffset q = (decimalValue ds : Int)) ∧
      (getStr q "offset" = some (String.mk ('-' :: ds)) →
        deriveOffset q = -(decimalValue ds : Int))) ∧
    (∀ s : String, getStr q "offset" = some s →
      (∀ c ∈ s.toList, c.isDigit = false ∧ ¬c = '-' ∧ ¬c = '+') →
      deriveOffset q = 0) := by
  refine ⟨?_, ?_, ?_⟩
  · intro h
    simp [deriveOffset, h]
  · intro ds hne hds
    constructor
    · intro h
      simp [deriveOffset, h, jsParseInt_digits ds hne hds]
    · intro h
      simp [deriveOffset, h, jsParseInt_neg_digits ds hne hds]
  · intro s h hs
    simp [deriveOffset, h, jsParseInt_invalid s hs]

/-- Witness for C3 (amended) at the spec examples 20, -5, abc and absent. -/
theorem offset_derivation_witness :
    deriveOffset [("offset", QVal.str "20")] =
        (decimalValue ['2', '0'] : Int) ∧
      deriveOffset [("offset", QVal.str "-5")] =
        -(decimalValue ['5'] : Int) ∧
      deriveOffset [("offset", QVal.str "abc")] = 0 ∧
      deriveOffset [] = 0 :=
  ⟨((offset_derivation [("offset", QVal.str "20")]).2.1 ['2', '0']
      (by decide) (by decide)).1 (by decide),
    ((offset_derivation [("offset", QVal.str "-5")]).2.1 ['5']
      (by decide) (by decide)).2 (by decide),
    (offset_derivation [("offset", QVal.str "abc")]).2.2 "abc"
      (by decide) (by decide),
    (offset_derivation []).1 (by decide)⟩

/-- C7: the page size is the fixed ACTIVITY_LIMIT of 10 for every derived
query, and the pagination control is rendered exactly when totalCount
exceeds it: rendered at 25 (3 pages), not rendered at 5 or at exactly 10. -/
theorem pagination_fixed_limit :
    ACTIVITY_LIMIT = 10 ∧
    (∀ slug q, (getQueryVariables slug q).limit = 10) ∧
    (∀ acct acts, paginationRendered (some ⟨acct, some acts⟩) =
      decide (acts.totalCount > 10)) ∧
    paginationRendered none = false ∧
    (∀ acct, paginationRendered (some ⟨acct, none⟩) = false) ∧
    paginationRendered (some ⟨none, some ⟨25, some []⟩⟩) = true ∧
    pageCount 25 10 = 3 ∧
    paginationRendered (some ⟨none, some ⟨5, some []⟩⟩) = false ∧
    paginationRendered (some ⟨none, some ⟨10, some []⟩⟩) = false := by
  refine ⟨rfl, ?_, ?_, rfl, ?_, by decide, by decide, by decide, by decide⟩
  · intro slug q
    simp [getQueryVariables, ACTIVITY_LIMIT]
  · intro acct acts
    rfl
  · intro acct
    rfl

/-- C8: the render outcome is selected in priority order — error, then
loading, then the must-be-admin message when the activities nodes are
absent, then the empty state at totalCount 0, else the activity list. -/
theorem render_branch_selection :
    (∀ loading data, selectRenderBranch true loading data =
      RenderBranch.graphqlError) ∧
    (∀ data, selectRenderBranch false true data =
      RenderBranch.loadingPlaceholder) ∧
    selectRenderBranch false false none = RenderBranch.mustBeAdmin ∧
    (∀ acct, selectRenderBranch false false (some ⟨acct, none⟩) =
      RenderBranch.mustBeAdmin) ∧
    (∀ acct n, selectRenderBranch false false (some ⟨acct, some ⟨n, none⟩⟩) =
      RenderBranch.mustBeAdmin) ∧
    (∀ acct ns, selectRenderBranch false false
      (some ⟨acct, some ⟨0, some ns⟩⟩) = RenderBranch.noActivity) ∧
    (∀ acct n ns, selectRenderBranch false false
      (some ⟨acct, some ⟨n + 1, some ns⟩⟩) = RenderBranch.activityList) := by
  refine ⟨fun _ _ => rfl, fun _ => rfl, rfl, fun _ => rfl, fun _ _ => rfl,
    fun _ _ => rfl, fun _ _ _ => ?_⟩
  simp [selectRenderBranch]

end ActivityLog
